import Mathlib

/-!
Shallow embedding of `main.py` from the graham-chemtel-net-documentation
repository: a scrape/download/validate pipeline over PDF files.

Modelling conventions:
* Strings are Lean `String`s; the Python string operations used by the
  script (`str.lower`, `str.isupper`, `str.endswith`, `str.replace`,
  `urllib.parse.unquote`, `urllib.parse.urlparse().path`,
  `os.path.basename`, `os.path.join`) are embedded below for the ASCII
  range, which is the range the script's URLs and filenames exercise.
* The filesystem is an association list from absolute path to file
  content; `os.remove` erases the entry, an `open(..., "wb")` write or
  an `open(..., "a")` append inserts/updates the entry.
* External collaborators (the `requests` HTTP client, the `fitz` PDF
  parser, Selenium page rendering, `os.walk`, BeautifulSoup's tag
  stream) are modelled at their boundary: their observable answer for
  the one call the script makes is passed in as data.
-/

/-- ASCII case folding of one character, modelling CPython `str.lower`
on the ASCII range (uppercase letters 65..90 map to 97..122, everything
else is unchanged). -/
def pyLowerChar (c : Char) : Char :=
  if 65 ≤ c.toNat ∧ c.toNat ≤ 90 then Char.ofNat (c.toNat + 32) else c

/-- Models Python `s.lower()` (ASCII range). -/
def pyLower (s : String) : String :=
  String.mk (s.data.map pyLowerChar)

/-- Models Python `c.isupper()` for one character (ASCII range). -/
def isUpperAscii (c : Char) : Bool :=
  decide (65 ≤ c.toNat ∧ c.toNat ≤ 90)

/-- Models Python `s.endswith(suff)`. -/
def pyEndsWith (s suff : String) : Bool :=
  suff.data.isSuffixOf s.data

/-- Hexadecimal digit value, as accepted by `urllib.parse.unquote`
escape sequences. -/
def hexVal (c : Char) : Option Nat :=
  if 48 ≤ c.toNat ∧ c.toNat ≤ 57 then some (c.toNat - 48)
  else if 97 ≤ c.toNat ∧ c.toNat ≤ 102 then some (c.toNat - 87)
  else if 65 ≤ c.toNat ∧ c.toNat ≤ 70 then some (c.toNat - 55)
  else none

/-- Percent-decoding of a character list, modelling
`urllib.parse.unquote`: a `%` followed by two hex digits decodes to the
byte they denote; a `%` not followed by two hex digits is kept
literally. Each escaped byte is decoded independently, which agrees
with CPython on the ASCII bytes this repository's URLs contain. -/
def unquoteChars : List Char → List Char
  | [] => []
  | '%' :: a :: b :: rest =>
    (match hexVal a, hexVal b with
     | some ha, some hb => Char.ofNat (16 * ha + hb) :: unquoteChars rest
     | _, _ => '%' :: unquoteChars (a :: b :: rest))
  | c :: rest => c :: unquoteChars rest

/-- Models `urllib.parse.unquote` on strings. -/
def urllib_unquote (s : String) : String :=
  String.mk (unquoteChars s.data)

/-- Characters allowed in a URL scheme by `urllib.parse.urlparse`. -/
def isSchemeChar (c : Char) : Bool :=
  c.isAlpha || c.isDigit || c == '+' || c == '-' || c == '.'

/-- Drops a leading `scheme:` from a URL's characters when the text
before the first colon is a valid scheme (nonempty, leading letter,
scheme characters only), as `urllib.parse.urlparse` does. -/
def splitScheme (cs : List Char) : List Char :=
  let pre := cs.takeWhile (fun c => c != ':')
  if pre.length < cs.length ∧ pre ≠ [] ∧ (pre.headD 'a').isAlpha ∧ pre.all isSchemeChar
  then cs.drop (pre.length + 1) else cs

/-- Drops a leading `//netloc` (authority) component: the netloc
extends to the first `/`, `?` or `#`, as in `urllib.parse.urlparse`. -/
def splitNetloc (cs : List Char) : List Char :=
  match cs with
  | '/' :: '/' :: rest =>
    rest.dropWhile (fun c => !(c == '/') && !(c == '?') && !(c == '#'))
  | _ => cs

/-- Models `urllib.parse.urlparse(url).path`: the fragment (after the
first `#`) and query (after the first `?`) are discarded, as are the
scheme and the `//host` authority. -/
def urlparse_path (url : String) : String :=
  String.mk
    ((splitNetloc (splitScheme (url.data.takeWhile (fun c => c != '#')))).takeWhile
      (fun c => c != '?'))

/-- Models `os.path.basename` (POSIX): the text after the last `/`. -/
def os_path_basename (p : String) : String :=
  String.mk ((p.data.reverse.takeWhile (fun c => c != '/')).reverse)

/-- Models `os.path.join` for two POSIX path components. -/
def os_path_join (a b : String) : String :=
  if b.data.headD ' ' = '/' then b
  else if a.data = [] then b
  else if a.data.getLastD ' ' = '/' then String.mk (a.data ++ b.data)
  else String.mk (a.data ++ '/' :: b.data)

/-- Embedding of `url_to_filename` from `main.py`: take the URL's path
component, take its basename, percent-decode it, replace spaces with
hyphens, and lower-case the result. -/
def url_to_filename (url : String) : String :=
  let path := urlparse_path url
  let filename := os_path_basename path
  let filename := urllib_unquote filename
  let filename := String.mk (filename.data.map (fun c => if c = ' ' then '-' else c))
  pyLower filename

/-- Stated from the specification's §4.2 wording, for comparison with
the source's `url_to_filename`: (1) parse out the path component,
discarding scheme/host/query; (2) take its final path segment as the
raw filename; (3) percent-decode it; (4) replace literal space
characters with hyphens; (5) fold to lower case. -/
def derive_spec (url : String) : String :=
  let step1 := urlparse_path url
  let step2 := os_path_basename step1
  let step3 := urllib_unquote step2
  let step4 := String.mk (step3.data.map (fun c => if c = ' ' then '-' else c))
  pyLower step4

example : url_to_filename "/docs/Report A.PDF" = "report-a.pdf" := by decide
example : url_to_filename "https://x/A%20B.PDF" = "a-b.pdf" := by decide

/-! ## Filesystem model

The filesystem seen by the script is an association list from path to
file content (content type varies by stage). -/

/-- Looks up the content stored at a path. -/
def fsLookup {α : Type} : List (String × α) → String → Option α
  | [], _ => none
  | (q, v) :: rest, p => if q = p then some v else fsLookup rest p

/-- Removes the entry at a path; embeds `os.remove` (and so the
source's `remove_system_file`). -/
def fsErase {α : Type} : List (String × α) → String → List (String × α)
  | [], _ => []
  | (q, v) :: rest, p => if q = p then fsErase rest p else (q, v) :: fsErase rest p

/-- Stores content at a path, replacing any previous entry; embeds an
`open(path, "wb")` write of a whole body. -/
def fsInsert {α : Type} (fs : List (String × α)) (p : String) (v : α) :
    List (String × α) :=
  (p, v) :: fsErase fs p

/-- Embedding of `check_file_exists` from `main.py`
(`os.path.isfile`). -/
def check_file_exists {α : Type} (fs : List (String × α)) (system_path : String) :
    Bool :=
  (fsLookup fs system_path).isSome

/-! ## HTML parsing (Link Extractor)

BeautifulSoup is an external collaborator; the parsed document is
modelled as the stream of tags it yields, in document order. An anchor
carries its hyperlink attribute when it has one. -/

/-- One tag of the parsed markup: an anchor element (with its optional
`href` attribute value) or any other element. -/
inductive HtmlTag where
  | a (href : Option String)
  | other

/-- Embedding of `parse_html` from `main.py`: for each anchor that has
an `href` (BeautifulSoup's `find_all(name="a", href=True)`), if the
lower-cased URL ends with `.pdf`, append the lower-cased URL. -/
def parse_html : List HtmlTag → List String
  | [] => []
  | HtmlTag.a (some url) :: rest =>
    if pyEndsWith (pyLower url) ".pdf" then pyLower url :: parse_html rest
    else parse_html rest
  | _ :: rest => parse_html rest

/-- Hyperlink values of the anchors that carry one, in document order;
used to state what `parse_html` extracts. -/
def hrefsOf : List HtmlTag → List String
  | [] => []
  | HtmlTag.a (some url) :: rest => url :: hrefsOf rest
  | _ :: rest => hrefsOf rest

/-! ## Download Stage -/

/-- Outcome of the single `requests.get(url)` the script issues for one
URL: a successful 2xx response with a body, a non-2xx response (on
which `raise_for_status` raises), or a transport error (on which
`requests.get` itself raises). -/
inductive HttpOutcome where
  | success (body : String)
  | httpError (status : Nat)
  | transportError (msg : String)

/-- Which return path `download_pdf` takes, following the
specification's result vocabulary: the early return after the
existence check (`skipped`), the return after a successful write
(`downloaded`), or the `except` branch (`failed`). -/
inductive DownloadResult where
  | skipped
  | downloaded
  | failed
deriving DecidableEq

/-- Embedding of `download_pdf` from `main.py`. Returns the result
tag, the filesystem afterwards, and how many network calls were made
(0 or 1). If the file already exists at `save_path/filename` the
function returns before any network call; otherwise the one GET is
issued, and the body is written only after `raise_for_status`
succeeded — both error branches leave the filesystem untouched. -/
def download_pdf (net : HttpOutcome) (fs : List (String × String))
    (save_path filename : String) :
    DownloadResult × List (String × String) × Nat :=
  if check_file_exists fs (os_path_join save_path filename) then
    (DownloadResult.skipped, fs, 0)
  else
    match net with
    | HttpOutcome.success body =>
      (DownloadResult.downloaded,
        fsInsert fs (os_path_join save_path filename) body, 1)
    | HttpOutcome.httpError _ => (DownloadResult.failed, fs, 1)
    | HttpOutcome.transportError _ => (DownloadResult.failed, fs, 1)

/-- Embedding of the download loop in `main`: for each extracted link
(paired with the network's answer for it), derive the filename and run
`download_pdf` into `"PDFs/"`. Returns the final filesystem and the
total number of network calls. -/
def main_download_loop (fs : List (String × String)) :
    List (String × HttpOutcome) → List (String × String) × Nat
  | [] => (fs, 0)
  | (link, net) :: rest =>
    let r := download_pdf net fs "PDFs/" (url_to_filename link)
    let rec_result := main_download_loop r.2.1 rest
    (rec_result.1, r.2.2 + rec_result.2)

/-! ## Validation Stage -/

/-- What the `fitz` PDF parser reports for one on-disk file: whether
`fitz.open` succeeds (raises no `RuntimeError`), and the `page_count`
it reports when it does. -/
structure PdfFile where
  openOk : Bool
  pageCount : Nat
deriving DecidableEq

/-- Embedding of `validate_pdf_file` from `main.py`, given the parse
behaviour `f` of the file at `file_path`: an open failure or a zero
page count yields `(file_path, false)`, otherwise
`(file_path, true)`. -/
def validate_pdf_file (file_path : String) (f : PdfFile) : String × Bool :=
  if f.openOk then
    if f.pageCount = 0 then (file_path, false) else (file_path, true)
  else (file_path, false)

/-- Embedding of `get_filename_and_extension` from `main.py`
(`os.path.basename`). -/
def get_filename_and_extension (path : String) : String :=
  os_path_basename path

/-- Embedding of `check_upper_case_letter` from `main.py`: whether any
character of the string is upper-case. -/
def check_upper_case_letter (content : String) : Bool :=
  content.data.any isUpperAscii

/-- Embedding of `process_file` from `main.py`: validate the file at
`file_path`; on an invalid verdict delete it and return `none`; on a
valid verdict return the path when its basename contains an upper-case
letter, `none` otherwise. The filesystem holds each file's parse
behaviour; a path absent from the filesystem is outside the modelled
scope (the source would raise there), so it is mapped to a no-op. -/
def process_file (fs : List (String × PdfFile)) (file_path : String) :
    Option String × List (String × PdfFile) :=
  match fsLookup fs file_path with
  | none => (none, fs)
  | some f =>
    let filename := get_filename_and_extension file_path
    let v := validate_pdf_file file_path f
    if v.2 then
      if check_upper_case_letter filename then (some v.1, fs) else (none, fs)
    else (none, fsErase fs v.1)

/-- Embedding of the validation fan-out in `main`: `process_file` on
each discovered path, collecting the non-`none` results. The thread
pool collects results in completion order, which is unspecified; since
each task only touches its own path (spec §5), the fan-out is modelled
as a fold in submission order. -/
def validation_phase (fs : List (String × PdfFile)) :
    List String → List (String × PdfFile) × List String
  | [] => (fs, [])
  | p :: rest =>
    let r := process_file fs p
    let rec_result := validation_phase r.2 rest
    (rec_result.1,
      match r.1 with
      | some q => q :: rec_result.2
      | none => rec_result.2)

/-! ## Discovery Stage -/

/-- Models `os.path.abspath` relative to the working directory `cwd`:
an already-absolute path is kept, a relative one is joined onto `cwd`
(`normpath` segment cleanup is not modelled; no claim depends on
it). -/
def os_path_abspath (cwd p : String) : String :=
  if p.data.headD ' ' = '/' then p else os_path_join cwd p

/-- Embedding of `walk_directory_and_extract_given_file_extension`
from `main.py`. `os.walk` is the stdlib collaborator: `walkEntries` is
the sequence of `(dirpath, filenames)` pairs it yields for the root
being walked — a missing root yields the empty sequence. For every
listed file whose lower-cased name ends with the lower-cased
extension, the absolute path of `dirpath/file` is collected. -/
def walk_directory_and_extract_given_file_extension
    (walkEntries : List (String × List String)) (extension : String)
    (cwd : String) : List String :=
  walkEntries.flatMap (fun e =>
    (e.2.filter (fun file => pyEndsWith (pyLower file) (pyLower extension))).map
      (fun file => os_path_abspath cwd (os_path_join e.1 file)))

/-! ## Listing refresh (orchestrator prologue) -/

/-- The cached listing path used by `main`. -/
def html_file_path : String := "graham.chemtel.net.html"

/-- Embedding of `append_write_to_file` from `main.py`: `open` in mode
`"a"` creates the file when absent and appends otherwise. -/
def append_write_to_file (fs : List (String × String))
    (system_path content : String) : List (String × String) :=
  match fsLookup fs system_path with
  | some old => fsInsert fs system_path (old ++ content)
  | none => fsInsert fs system_path content

/-- Embedding of the listing-refresh prologue of `main`: delete the
cached markup file if it exists, then, if it does not exist, render
the listing page (Selenium collaborator, whose fresh page source is
`freshHtml`) and append it to the file. Returns the filesystem and
whether the Selenium fetch ran. -/
def main_refresh_listing (fs : List (String × String)) (freshHtml : String) :
    List (String × String) × Bool :=
  let fs1 :=
    if check_file_exists fs html_file_path then fsErase fs html_file_path
    else fs
  if check_file_exists fs1 html_file_path = false then
    (append_write_to_file fs1 html_file_path freshHtml, true)
  else (fs1, false)

/-! ## Helper lemmas -/

/-- Converting a codepoint below the surrogate range to a `Char` and
back is the identity. -/
theorem char_toNat_ofNat_of_lt {n : Nat} (h : n < 55296) :
    (Char.ofNat n).toNat = n := by
  have hv : n.isValidChar := Or.inl h
  simp [Char.ofNat, hv, Char.ofNatAux, Char.toNat, UInt32.toNat]

/-- ASCII lower-casing never yields an upper-case character. -/
theorem isUpperAscii_pyLowerChar (c : Char) :
    isUpperAscii (pyLowerChar c) = false := by
  unfold pyLowerChar isUpperAscii
  by_cases h : 65 ≤ c.toNat ∧ c.toNat ≤ 90
  · rw [if_pos h]
    have h32 : (Char.ofNat (c.toNat + 32)).toNat = c.toNat + 32 :=
      char_toNat_ofNat_of_lt (by omega)
    simp only [decide_eq_false_iff_not, h32]
    omega
  · rw [if_neg h]
    simpa using h

/-- A lower-cased string contains no upper-case character. -/
theorem check_upper_case_letter_pyLower (s : String) :
    check_upper_case_letter (pyLower s) = false := by
  unfold check_upper_case_letter pyLower
  simp [List.any_map, Function.comp, isUpperAscii_pyLowerChar]

/-- Erasing a path removes it from lookup. -/
theorem fsLookup_fsErase_self {α : Type} (fs : List (String × α)) (p : String) :
    fsLookup (fsErase fs p) p = none := by
  induction fs with
  | nil => rfl
  | cons e rest ih =>
    obtain ⟨q, v⟩ := e
    by_cases h : q = p
    · simpa [fsErase, h] using ih
    · simpa [fsErase, fsLookup, h] using ih

/-- Freshly stored content is what lookup returns. -/
theorem fsLookup_fsInsert_self {α : Type} (fs : List (String × α))
    (p : String) (v : α) : fsLookup (fsInsert fs p v) p = some v := by
  simp [fsInsert, fsLookup]

/-- A failed existence check means lookup finds nothing. -/
theorem fsLookup_eq_none_of_exists_false {α : Type}
    (fs : List (String × α)) (p : String)
    (h : check_file_exists fs p = false) : fsLookup fs p = none := by
  unfold check_file_exists at h
  cases hl : fsLookup fs p with
  | none => rfl
  | some v => rw [hl] at h; simp at h

/-- The validation verdict carries the input path through unchanged. -/
theorem validate_pdf_file_fst (p : String) (f : PdfFile) :
    (validate_pdf_file p f).1 = p := by
  unfold validate_pdf_file
  by_cases h : f.openOk <;> by_cases h0 : f.pageCount = 0 <;> simp [h, h0]

/-! ## Claims -/

/-- C2: for every path holding a file, an invalid verdict (open
failure, or zero pages) is delivered exactly when the file fails to
open or reports no pages; on an invalid verdict `process_file` deletes
the file, so a subsequent existence check returns false; on a valid
verdict the filesystem is untouched. -/
theorem claim_C2_invalid_verdict_deletes_file
    (fs : List (String × PdfFile)) (path : String) (f : PdfFile)
    (h : fsLookup fs path = some f) :
    ((validate_pdf_file path f).2 = false ↔
      (f.openOk = false ∨ f.pageCount = 0)) ∧
    ((validate_pdf_file path f).2 = false →
      check_file_exists (process_file fs path).2 path = false) ∧
    ((validate_pdf_file path f).2 = true → (process_file fs path).2 = fs) := by
  refine ⟨?_, ?_, ?_⟩
  · unfold validate_pdf_file
    by_cases hok : f.openOk <;> by_cases h0 : f.pageCount = 0 <;> simp [hok, h0]
  · intro hv
    unfold process_file
    rw [h]
    simp only [hv, validate_pdf_file_fst, Bool.false_eq_true, if_false]
    simp [check_file_exists, fsLookup_fsErase_self]
  · intro hv
    unfold process_file
    rw [h]
    simp only [hv, if_true]
    split <;> rfl

/-- C2 witness: a file reporting zero pages at `PDFs/a.pdf` no longer
exists after `process_file`. -/
theorem claim_C2_witness :
    check_file_exists
      (process_file [("PDFs/a.pdf", (⟨true, 0⟩ : PdfFile))] "PDFs/a.pdf").2
      "PDFs/a.pdf" = false :=
  (claim_C2_invalid_verdict_deletes_file
    [("PDFs/a.pdf", ⟨true, 0⟩)] "PDFs/a.pdf" ⟨true, 0⟩ (by decide)).2.1 (by decide)

/-- C1 counterexample: a valid PDF at `PDFs/Report.PDF`, whose
basename has upper-case letters and whose lower-cased target
`PDFs/report.pdf` does not exist, is NOT renamed by the pipeline: after
the validation/collection phase the file is still at its original path
and nothing exists at the lower-cased path. -/
theorem claim_C1_counterexample :
    (validate_pdf_file "PDFs/Report.PDF" (⟨true, 3⟩ : PdfFile)).2 = true ∧
    check_upper_case_letter (get_filename_and_extension "PDFs/Report.PDF") = true ∧
    check_file_exists [("PDFs/Report.PDF", (⟨true, 3⟩ : PdfFile))] "PDFs/report.pdf" = false ∧
    fsLookup (validation_phase [("PDFs/Report.PDF", (⟨true, 3⟩ : PdfFile))]
      ["PDFs/Report.PDF"]).1 "PDFs/Report.PDF" = some ⟨true, 3⟩ ∧
    fsLookup (validation_phase [("PDFs/Report.PDF", (⟨true, 3⟩ : PdfFile))]
      ["PDFs/Report.PDF"]).1 "PDFs/report.pdf" = none := by
  decide

/-- C1 (amended): for every file the validation fan-out judges valid
and whose basename contains an upper-case character, the pipeline
collects the path for the final report and performs no rename — the
filesystem is left unchanged and the file stays at its original
path. -/
theorem claim_C1_valid_uppercase_collected_not_renamed
    (fs : List (String × PdfFile)) (path : String) (f : PdfFile)
    (h : fsLookup fs path = some f)
    (hv : (validate_pdf_file path f).2 = true)
    (hu : check_upper_case_letter (get_filename_and_extension path) = true) :
    process_file fs path = (some path, fs) ∧
    validation_phase fs [path] = (fs, [path]) := by
  have hp : process_file fs path = (some path, fs) := by
    unfold process_file
    rw [h]
    simp [hv, hu, validate_pdf_file_fst]
  exact ⟨hp, by simp [validation_phase, hp]⟩

/-- C1 witness: the valid `PDFs/Report.PDF` from the counterexample is
collected and the filesystem is unchanged. -/
theorem claim_C1_witness :
    process_file [("PDFs/Report.PDF", (⟨true, 3⟩ : PdfFile))] "PDFs/Report.PDF"
      = (some "PDFs/Report.PDF", [("PDFs/Report.PDF", ⟨true, 3⟩)]) :=
  (claim_C1_valid_uppercase_collected_not_renamed
    [("PDFs/Report.PDF", ⟨true, 3⟩)] "PDFs/Report.PDF" ⟨true, 3⟩
    (by decide) (by decide) (by decide)).1

/-- C3 counterexample: markup containing
`<a href="/docs/Report A.PDF">` yields the LOWER-CASED URL
`/docs/report a.pdf`, not the hyperlink text unchanged. -/
theorem claim_C3_counterexample :
    parse_html [HtmlTag.a (some "/docs/Report A.PDF")] = ["/docs/report a.pdf"] ∧
    parse_html [HtmlTag.a (some "/docs/Report A.PDF")] ≠ ["/docs/Report A.PDF"] := by
  decide

/-- C3 (amended): the extractor returns, in document order with
duplicates preserved, the LOWER-CASED hyperlink value of exactly those
anchors carrying a hyperlink attribute whose URL ends
case-insensitively with `.pdf`; empty input yields the empty sequence;
the `<a href="/docs/Report A.PDF">` example yields
`/docs/report a.pdf`. -/
theorem claim_C3_lowercased_links_in_document_order :
    parse_html [] = [] ∧
    parse_html [HtmlTag.a (some "/docs/Report A.PDF")] = ["/docs/report a.pdf"] ∧
    ∀ doc : List HtmlTag,
      parse_html doc = (hrefsOf doc).filterMap
        (fun u => if pyEndsWith (pyLower u) ".pdf" then some (pyLower u) else none) := by
  refine ⟨rfl, by decide, ?_⟩
  intro doc
  induction doc with
  | nil => rfl
  | cons t rest ih =>
    cases t with
    | a href =>
      cases href with
      | none => simpa [parse_html, hrefsOf] using ih
      | some u =>
        by_cases hc : pyEndsWith (pyLower u) ".pdf" <;>
          simp [parse_html, hrefsOf, hc, ih]
    | other => simpa [parse_html, hrefsOf] using ih

/-- C9: every string the extractor returns ends with `.pdf` and
contains no upper-case character, so downstream stages operate on
lower-cased URLs. -/
theorem claim_C9_extractor_output_lowercase_pdf
    (doc : List HtmlTag) (s : String) (h : s ∈ parse_html doc) :
    pyEndsWith s ".pdf" = true ∧ check_upper_case_letter s = false := by
  induction doc with
  | nil => simp [parse_html] at h
  | cons t rest ih =>
    cases t with
    | a href =>
      cases href with
      | none => exact ih (by simpa [parse_html] using h)
      | some u =>
        by_cases hc : pyEndsWith (pyLower u) ".pdf"
        · rw [parse_html, if_pos hc] at h
          rcases List.mem_cons.mp h with rfl | hrest
          · exact ⟨hc, check_upper_case_letter_pyLower u⟩
          · exact ih hrest
        · rw [parse_html, if_neg hc] at h
          exact ih h
    | other => exact ih (by simpa [parse_html] using h)

/-- C9 witness: the extractor's output on the `Report A.PDF` markup is
a lower-cased `.pdf` URL. -/
theorem claim_C9_witness :
    pyEndsWith "/docs/report a.pdf" ".pdf" = true ∧
    check_upper_case_letter "/docs/report a.pdf" = false :=
  claim_C9_extractor_output_lowercase_pdf
    [HtmlTag.a (some "/docs/Report A.PDF")] "/docs/report a.pdf" (by decide)

/-- C4: when no file exists at the target path and the single GET
returns a non-2xx status or a transport error, `download_pdf` reports
failure, leaves the filesystem untouched (no partial file at the
target path), and the download loop proceeds to the remaining
items. -/
theorem claim_C4_failed_download_leaves_no_file
    (net : HttpOutcome) (fs : List (String × String)) (dir fn : String)
    (hmiss : fsLookup fs (os_path_join dir fn) = none)
    (herr : (∃ s, net = HttpOutcome.httpError s) ∨
      (∃ m, net = HttpOutcome.transportError m)) :
    (download_pdf net fs dir fn).1 = DownloadResult.failed ∧
    (download_pdf net fs dir fn).2.1 = fs ∧
    fsLookup (download_pdf net fs dir fn).2.1 (os_path_join dir fn) = none ∧
    ∀ (link : String) (rest : List (String × HttpOutcome)),
      url_to_filename link = fn → dir = "PDFs/" →
      main_download_loop fs ((link, net) :: rest)
        = ((main_download_loop fs rest).1, 1 + (main_download_loop fs rest).2) := by
  have hex : check_file_exists fs (os_path_join dir fn) = false := by
    simp [check_file_exists, hmiss]
  have hdl : download_pdf net fs dir fn = (DownloadResult.failed, fs, 1) := by
    unfold download_pdf
    rw [hex]
    rcases herr with ⟨s, rfl⟩ | ⟨m, rfl⟩ <;> simp
  refine ⟨by rw [hdl], by rw [hdl], by rw [hdl]; exact hmiss, ?_⟩
  intro link rest hfn hdir
  subst hfn hdir
  conv_lhs => rw [main_download_loop]
  rw [hdl]

/-- C4 witness: a 404 on a fresh target leaves no file and reports
failure. -/
theorem claim_C4_witness :
    (download_pdf (HttpOutcome.httpError 404) [] "PDFs/" "a.pdf").1
      = DownloadResult.failed ∧
    fsLookup (download_pdf (HttpOutcome.httpError 404) [] "PDFs/"
      "a.pdf").2.1 (os_path_join "PDFs/" "a.pdf") = none :=
  ⟨(claim_C4_failed_download_leaves_no_file (HttpOutcome.httpError 404) []
      "PDFs/" "a.pdf" (by decide) (Or.inl ⟨404, rfl⟩)).1,
   (claim_C4_failed_download_leaves_no_file (HttpOutcome.httpError 404) []
      "PDFs/" "a.pdf" (by decide) (Or.inl ⟨404, rfl⟩)).2.2.1⟩

/-- C5: if a file already exists at the target path, `download_pdf`
returns skipped, makes no network call, and leaves the filesystem —
hence the existing file's content — unchanged, whatever URL the
request was for; consequently, starting from an absent file, a
successful download followed by a second invocation on the same
target (any network behaviour for it) performs exactly one network
fetch in total, the second invocation is skipped, and the downloaded
content survives unchanged. -/
theorem claim_C5_download_idempotent
    (fs : List (String × String)) (dir fn : String) :
    (∀ net, check_file_exists fs (os_path_join dir fn) = true →
      download_pdf net fs dir fn = (DownloadResult.skipped, fs, 0)) ∧
    (∀ (body : String) (net₂ : HttpOutcome),
      fsLookup fs (os_path_join dir fn) = none →
      (download_pdf (HttpOutcome.success body) fs dir fn).1
        = DownloadResult.downloaded ∧
      (download_pdf net₂
        (download_pdf (HttpOutcome.success body) fs dir fn).2.1 dir fn).1
        = DownloadResult.skipped ∧
      (download_pdf (HttpOutcome.success body) fs dir fn).2.2
        + (download_pdf net₂
            (download_pdf (HttpOutcome.success body) fs dir fn).2.1 dir fn).2.2
        = 1 ∧
      fsLookup (download_pdf net₂
          (download_pdf (HttpOutcome.success body) fs dir fn).2.1 dir fn).2.1
        (os_path_join dir fn) = some body) := by
  constructor
  · intro net hex
    unfold download_pdf
    rw [hex]
    simp
  · intro body net₂ hmiss
    have hex : check_file_exists fs (os_path_join dir fn) = false := by
      simp [check_file_exists, hmiss]
    have h1 : download_pdf (HttpOutcome.success body) fs dir fn
        = (DownloadResult.downloaded,
           fsInsert fs (os_path_join dir fn) body, 1) := by
      unfold download_pdf
      rw [hex]
      simp
    have hex2 : check_file_exists (fsInsert fs (os_path_join dir fn) body)
        (os_path_join dir fn) = true := by
      simp [check_file_exists, fsLookup_fsInsert_self]
    have h2 : download_pdf net₂ (fsInsert fs (os_path_join dir fn) body) dir fn
        = (DownloadResult.skipped, fsInsert fs (os_path_join dir fn) body, 0) := by
      unfold download_pdf
      rw [hex2]
      simp
    rw [h1]
    simp [h2, fsLookup_fsInsert_self]

/-- C5 witness: downloading `b.pdf` into `PDFs/` and invoking the
stage again performs one fetch, skips the second time, and keeps the
body. -/
theorem claim_C5_witness :
    (download_pdf (HttpOutcome.success "BODY") [] "PDFs/" "b.pdf").1
      = DownloadResult.downloaded ∧
    (download_pdf (HttpOutcome.transportError "down")
      (download_pdf (HttpOutcome.success "BODY") [] "PDFs/" "b.pdf").2.1
      "PDFs/" "b.pdf").1 = DownloadResult.skipped ∧
    (download_pdf (HttpOutcome.success "BODY") [] "PDFs/" "b.pdf").2.2
      + (download_pdf (HttpOutcome.transportError "down")
          (download_pdf (HttpOutcome.success "BODY") [] "PDFs/" "b.pdf").2.1
          "PDFs/" "b.pdf").2.2 = 1 ∧
    fsLookup (download_pdf (HttpOutcome.transportError "down")
        (download_pdf (HttpOutcome.success "BODY") [] "PDFs/" "b.pdf").2.1
        "PDFs/" "b.pdf").2.1 (os_path_join "PDFs/" "b.pdf") = some "BODY" :=
  (claim_C5_download_idempotent [] "PDFs/" "b.pdf").2 "BODY"
    (HttpOutcome.transportError "down") (by decide)

/-- C6: the Filename Deriver performs, in order, path extraction,
final-segment selection, percent-decoding, space-to-hyphen
replacement, and lower-casing; `/docs/Report A.PDF` derives to
`report-a.pdf`. -/
theorem claim_C6_filename_derivation_steps :
    (∀ url, url_to_filename url = derive_spec url) ∧
    url_to_filename "/docs/Report A.PDF" = "report-a.pdf" :=
  ⟨fun _ => rfl, by decide⟩

/-- C7 counterexample: the two distinct raw inputs
`https://x/A%20B.PDF` and `https://x/a-b.pdf` derive EQUAL filenames,
so the claimed disequality fails. -/
theorem claim_C7_counterexample :
    url_to_filename "https://x/A%20B.PDF" = url_to_filename "https://x/a-b.pdf" := by
  decide

/-- C7 (amended): the Filename Deriver is pure and deterministic —
repeated calls on the same URL agree — and the two distinct raw inputs
`https://x/A%20B.PDF` and `https://x/a-b.pdf` canonicalize to the SAME
filename `a-b.pdf` (the equality holds true, not false). -/
theorem claim_C7_deterministic_and_colliding :
    (∀ url, url_to_filename url = url_to_filename url) ∧
    url_to_filename "https://x/A%20B.PDF" = "a-b.pdf" ∧
    url_to_filename "https://x/a-b.pdf" = "a-b.pdf" :=
  ⟨fun _ => rfl, by decide, by decide⟩

/-- C8: discovery returns the absolute path of exactly those files the
walk lists whose name ends case-insensitively with the extension; a
missing root (an empty walk) yields the empty sequence. -/
theorem claim_C8_discovery_matches_extension (ext cwd : String) :
    walk_directory_and_extract_given_file_extension [] ext cwd = [] ∧
    ∀ (w : List (String × List String)) (p : String),
      p ∈ walk_directory_and_extract_given_file_extension w ext cwd ↔
      ∃ e ∈ w, ∃ file ∈ e.2,
        pyEndsWith (pyLower file) (pyLower ext) = true ∧
        p = os_path_abspath cwd (os_path_join e.1 file) := by
  refine ⟨rfl, ?_⟩
  intro w p
  unfold walk_directory_and_extract_given_file_extension
  simp only [List.mem_flatMap, List.mem_map, List.mem_filter]
  constructor
  · rintro ⟨e, he, file, ⟨hfile, hsuf⟩, rfl⟩
    exact ⟨e, he, file, hfile, hsuf, rfl⟩
  · rintro ⟨e, he, file, hfile, hsuf, rfl⟩
    exact ⟨e, he, file, ⟨hfile, hsuf⟩, rfl⟩

/-- C10: whatever the prior filesystem state, the orchestrator's
prologue re-fetches the listing page and leaves the cache file holding
exactly the fresh markup — cached markup from a prior run is never
reused. -/
theorem claim_C10_listing_refreshed_every_run
    (fs : List (String × String)) (fresh : String) :
    (main_refresh_listing fs fresh).2 = true ∧
    fsLookup (main_refresh_listing fs fresh).1 html_file_path = some fresh := by
  unfold main_refresh_listing
  by_cases h : check_file_exists fs html_file_path
  · have hnone : fsLookup (fsErase fs html_file_path) html_file_path = none :=
      fsLookup_fsErase_self fs html_file_path
    have hex : check_file_exists (fsErase fs html_file_path) html_file_path = false := by
      simp [check_file_exists, hnone]
    simp only [h, if_true, hex]
    simp [append_write_to_file, hnone, fsLookup_fsInsert_self]
  · have hb : check_file_exists fs html_file_path = false := by
      simpa using h
    have hnone : fsLookup fs html_file_path = none :=
      fsLookup_eq_none_of_exists_false fs html_file_path hb
    simp only [hb, Bool.false_eq_true, if_false]
    simp [append_write_to_file, hnone, fsLookup_fsInsert_self]
